import Mathlib

/-
Verification development for the card-tree subsystem of the jank forum.

The data model mirrors the Go structures in the source (CardTree,
CardTreeNode, CardTreeAnnotation in the models file); the REST handler
logic is translated from handlers_api.go and the batch payload resolver
from handlers_assets.go.  The TreeStore operations (createCardTree,
createCardTreeNode, getCardTreeNodeTreeID, updateCardTreeNode,
deleteCardTreeNode, createCardTreeAnnotation, deleteCardTreeAnnotation)
are implemented against a SQL backing store whose code is not part of the
sources here; they are modelled from the spec's TreeStore contracts
(spec section 4.1), as noted on each definition.

Conventions: database ids are Nat, drawn from a single increasing
counter `nextID`; the backing store is a `Store` record of rows; every
mutating operation returns the new store.  Functions that in Go return
an `error` while having already written rows return `Store × Option
String`, so that writes performed before a failure stay visible (the
reference implementation performs no rollback).  Go's
`strings.TrimSpace` is modelled by the `trimSpace` function.  Names that the Go
source spells with the full word for an annotation are shortened to
`Annot` where needed.
-/

/-- A card tree row (Go struct CardTree). -/
structure CardTree where
  id : Nat
  scopeType : String
  scopeID : Nat
  title : String
  description : String
  createdBy : String
  isPrimary : Bool
deriving DecidableEq, Repr

/-- A card tree node row (Go struct CardTreeNode). -/
structure CardTreeNode where
  id : Nat
  treeID : Nat
  parentID : Option Nat
  cardName : String
  position : Int
  createdBy : String
deriving DecidableEq, Repr

/-- An annotation row attached to a node (Go struct for node annotations). -/
structure CardTreeAnnot where
  id : Nat
  nodeID : Nat
  kind : String
  body : String
  label : String
  tags : String
  sourcePostID : Option Nat
  createdBy : String
deriving DecidableEq, Repr

/-- The backing store: all persisted rows plus the id counter. -/
structure Store where
  nextID : Nat
  trees : List CardTree
  nodes : List CardTreeNode
  annotations : List CardTreeAnnot
deriving DecidableEq, Repr

/-- The empty backing store. -/
def emptyStore : Store := ⟨1, [], [], []⟩

/-- The whitespace class of Go strings.TrimSpace (unicode.IsSpace for
the code points a payload realistically contains). -/
def isSpaceChar (c : Char) : Bool :=
  c = ' ' || c = '\t' || c = '\n' || c = '\x0B' || c = '\x0C' || c = '\r' || c = '\u0085' || c = '\u00A0'

/-- Go strings.TrimSpace: drop leading and trailing whitespace. -/
def trimSpace (s : String) : String :=
  String.mk (((s.toList.dropWhile isSpaceChar).reverse.dropWhile isSpaceChar).reverse)

/-- Modelled from the spec: TreeStore createTree (section 4.1), whose
implementation is not among the sources.  Fails with a validation error
if `title` is empty; otherwise inserts a tree row and returns it. -/
def createCardTree (st : Store) (scopeType : String) (scopeID : Nat)
    (title description username : String) (isPrimary : Bool) :
    Except String (CardTree × Store) :=
  if title = "" then Except.error "validation: title is required"
  else
    let t : CardTree := ⟨st.nextID, scopeType, scopeID, title, description, username, isPrimary⟩
    Except.ok (t, { st with nextID := st.nextID + 1, trees := st.trees ++ [t] })

/-- Modelled from the spec: TreeStore createNode (section 4.1), whose
implementation is not among the sources.  Fails with a validation error
if `cardName` is empty; per the spec it does NOT verify that `parentID`
belongs to `treeID` (that check is the caller's responsibility). -/
def createCardTreeNode (st : Store) (treeID : Nat) (parentID : Option Nat)
    (cardName : String) (position : Int) (username : String) :
    Except String (CardTreeNode × Store) :=
  if cardName = "" then Except.error "validation: card name is required"
  else
    let n : CardTreeNode := ⟨st.nextID, treeID, parentID, cardName, position, username⟩
    Except.ok (n, { st with nextID := st.nextID + 1, nodes := st.nodes ++ [n] })

/-- Modelled from the spec: TreeStore getNodeTreeID (section 4.1), whose
implementation is not among the sources.  Returns the owning tree id of
a node, or none (NotFound) if the node does not exist. -/
def getCardTreeNodeTreeID (st : Store) (nodeID : Nat) : Option Nat :=
  (st.nodes.find? (fun n => n.id = nodeID)).map (fun n => n.treeID)

/-- Modelled from the spec: TreeStore updateNode (section 4.1), whose
implementation is not among the sources.  Fails with NotFound if the
node is absent; otherwise rewrites parent, card name and position. -/
def updateCardTreeNode (st : Store) (nodeID : Nat) (parentID : Option Nat)
    (cardName : String) (position : Int) : Except String Store :=
  if st.nodes.any (fun n => n.id = nodeID) then
    Except.ok { st with nodes := st.nodes.map (fun n =>
      if n.id = nodeID then { n with parentID := parentID, cardName := cardName, position := position } else n) }
  else Except.error "not found: node"

/-- Modelled from the spec: TreeStore deleteNode (section 4.1), whose
implementation is not among the sources.  Deletes the single row and
does not cascade to children or annotations. -/
def deleteCardTreeNode (st : Store) (nodeID : Nat) : Except String Store :=
  Except.ok { st with nodes := st.nodes.filter (fun n => ¬ n.id = nodeID) }

/-- Modelled from the spec: TreeStore createAnnotation (section 4.1),
whose implementation is not among the sources.  Fails with a validation
error if `body` is empty; otherwise inserts the row. -/
def createCardTreeAnnot (st : Store) (nodeID : Nat) (kind body label tags : String)
    (sourcePostID : Option Nat) (username : String) :
    Except String (CardTreeAnnot × Store) :=
  if body = "" then Except.error "validation: body is required"
  else
    let a : CardTreeAnnot := ⟨st.nextID, nodeID, kind, body, label, tags, sourcePostID, username⟩
    Except.ok (a, { st with nextID := st.nextID + 1, annotations := st.annotations ++ [a] })

/-- Modelled from the spec: TreeStore deleteAnnotation (section 4.1),
whose implementation is not among the sources.  SQL-style delete of the
single matching row (a no-op when absent). -/
def deleteCardTreeAnnot (st : Store) (annotationID : Nat) : Except String Store :=
  Except.ok { st with annotations := st.annotations.filter (fun a => ¬ a.id = annotationID) }

/-- Decoded JSON body of POST tree endpoints (Go treeCreateRequest). -/
structure TreeCreateRequest where
  title : String
  description : String
  isPrimary : Bool
deriving DecidableEq, Repr

/-- Decoded JSON body of POST node endpoint (Go nodeCreateRequest). -/
structure NodeCreateRequest where
  parentID : Option Nat
  cardName : String
  position : Int
deriving DecidableEq, Repr

/-- Decoded JSON body of PATCH node endpoint (Go nodeUpdateRequest). -/
structure NodeUpdateRequest where
  parentID : Option Nat
  cardName : String
  position : Int
deriving DecidableEq, Repr

/-- Decoded JSON body of the annotation POST endpoint. -/
structure AnnotCreateRequest where
  kind : String
  body : String
  label : String
  tags : String
  sourcePostID : Option Nat
deriving DecidableEq, Repr

/-- HTTP-level outcome of a handler: 400, 404, 500, 204 or a JSON body. -/
inductive HResp where
  | badRequest : String → HResp
  | notFoundResp : String → HResp
  | serverError : String → HResp
  | noContent : HResp
  | okTree : CardTree → HResp
  | okNode : CardTreeNode → HResp
  | okAnnot : CardTreeAnnot → HResp
deriving DecidableEq, Repr

/-- POST under a board: creates a tree (handlers_api.go boardTreesHandler,
POST branch, after auth and JSON decoding). -/
def boardTreesHandlerPost (st : Store) (boardID : Nat) (username : String)
    (req : TreeCreateRequest) : HResp × Store :=
  if req.title = "" then (HResp.badRequest "Title is required", st)
  else
    match createCardTree st "board" boardID req.title req.description username req.isPrimary with
    | Except.error _ => (HResp.serverError "Failed to create tree", st)
    | Except.ok (t, st') => (HResp.okTree t, st')

/-- POST under a thread: creates a tree (handlers_api.go threadTreesHandler,
POST branch, after auth and JSON decoding). -/
def threadTreesHandlerPost (st : Store) (threadID : Nat) (username : String)
    (req : TreeCreateRequest) : HResp × Store :=
  if req.title = "" then (HResp.badRequest "Title is required", st)
  else
    match createCardTree st "thread" threadID req.title req.description username req.isPrimary with
    | Except.error _ => (HResp.serverError "Failed to create tree", st)
    | Except.ok (t, st') => (HResp.okTree t, st')

/-- POST of a node under a tree (handlers_api.go treeNodesHandler, after
auth and JSON decoding).  Note: no check that the parent belongs to the
addressed tree. -/
def treeNodesHandlerPost (st : Store) (treeID : Nat) (username : String)
    (req : NodeCreateRequest) : HResp × Store :=
  if req.cardName = "" then (HResp.badRequest "Card name is required", st)
  else
    match createCardTreeNode st treeID req.parentID req.cardName req.position username with
    | Except.error _ => (HResp.serverError "Failed to create node", st)
    | Except.ok (n, st') => (HResp.okNode n, st')

/-- PATCH of a node (handlers_api.go treeNodeHandler, MethodPatch branch,
after auth and JSON decoding). -/
def treeNodeHandlerPatch (st : Store) (treeID nodeID : Nat)
    (req : NodeUpdateRequest) : HResp × Store :=
  if req.cardName = "" then (HResp.badRequest "Card name is required", st)
  else
    match getCardTreeNodeTreeID st nodeID with
    | none => (HResp.notFoundResp "Node not found", st)
    | some nodeTreeID =>
      if ¬ nodeTreeID = treeID then (HResp.badRequest "Node does not belong to tree", st)
      else
        match updateCardTreeNode st nodeID req.parentID req.cardName req.position with
        | Except.error _ => (HResp.serverError "Failed to update node", st)
        | Except.ok st' => (HResp.noContent, st')

/-- DELETE of a node (handlers_api.go treeNodeHandler, MethodDelete
branch, after auth). -/
def treeNodeHandlerDelete (st : Store) (treeID nodeID : Nat) : HResp × Store :=
  match getCardTreeNodeTreeID st nodeID with
  | none => (HResp.notFoundResp "Node not found", st)
  | some nodeTreeID =>
    if ¬ nodeTreeID = treeID then (HResp.badRequest "Node does not belong to tree", st)
    else
      match deleteCardTreeNode st nodeID with
      | Except.error _ => (HResp.serverError "Failed to delete node", st)
      | Except.ok st' => (HResp.noContent, st')

/-- POST of an annotation on a node (handlers_api.go
treeNodeAnnotationsHandler, after auth and JSON decoding).  The handler
checks node existence and tree ownership before validating the body. -/
def treeNodeAnnotationsHandlerPost (st : Store) (treeID nodeID : Nat)
    (username : String) (req : AnnotCreateRequest) : HResp × Store :=
  match getCardTreeNodeTreeID st nodeID with
  | none => (HResp.notFoundResp "Node not found", st)
  | some nodeTreeID =>
    if ¬ nodeTreeID = treeID then (HResp.badRequest "Node does not belong to tree", st)
    else
      let kind := if req.kind = "" then "note" else req.kind
      if req.body = "" then (HResp.badRequest "Body is required", st)
      else
        match createCardTreeAnnot st nodeID kind req.body req.label req.tags req.sourcePostID username with
        | Except.error _ => (HResp.serverError "Failed to create annotation", st)
        | Except.ok (a, st') => (HResp.okAnnot a, st')

/-- DELETE of an annotation (handlers_api.go treeNodeAnnotationHandler,
after auth).  The Go handler parses only the annotationID path segment:
the treeID and nodeID segments of the route are never read, so no
ownership check of any kind is performed. -/
def treeNodeAnnotationHandlerDelete (st : Store) (_treeID _nodeID annotationID : Nat) :
    HResp × Store :=
  match deleteCardTreeAnnot st annotationID with
  | Except.error _ => (HResp.serverError "Failed to delete annotation", st)
  | Except.ok st' => (HResp.noContent, st')

/-- Client-submitted annotation descriptor in a batch payload
(handlers_assets.go cardTreePayloadAnnotation). -/
structure CardTreePayloadAnnot where
  kind : String
  body : String
  label : String
  tags : String
deriving DecidableEq, Repr

/-- Client-submitted node descriptor in a batch payload
(handlers_assets.go cardTreePayloadNode). -/
structure CardTreePayloadNode where
  tempID : String
  parentTempID : Option String
  cardName : String
  position : Int
  annotations : List CardTreePayloadAnnot
deriving DecidableEq, Repr

/-- Client-submitted tree in a batch payload
(handlers_assets.go cardTreePayloadTree). -/
structure CardTreePayloadTree where
  title : String
  description : String
  isPrimary : Bool
  nodes : List CardTreePayloadNode
deriving DecidableEq, Repr

/-- Client-submitted batch payload (handlers_assets.go cardTreePayload). -/
structure CardTreePayload where
  trees : List CardTreePayloadTree
deriving DecidableEq, Repr

/-- handlers_assets.go parseCardTreePayload.  The JSON decoder
(json.Unmarshal, an external library) is passed in as `unmarshal`;
everything else is the source's logic: trim, return (nil, nil) on empty
input, surface decode errors, and return (nil, nil) when the decoded
document has no trees. -/
def parseCardTreePayload (raw : String)
    (unmarshal : String → Except String CardTreePayload) :
    Except String (Option CardTreePayload) :=
  let raw := trimSpace raw
  if raw = "" then Except.ok none
  else
    match unmarshal raw with
    | Except.error e => Except.error e
    | Except.ok payload =>
      if payload.trees.length = 0 then Except.ok none
      else Except.ok (some payload)

/-- Lookup in the temp-id mapping; the most recent insertion wins,
matching overwrite semantics of the Go map. -/
def lookupTemp : List (String × Nat) → String → Option Nat
  | [], _ => none
  | (k, v) :: rest, key => if k = key then some v else lookupTemp rest key

/-- Outcome of examining a descriptor's parent reference against the
current temp-id mapping, mirroring the guard in applyCardTreePayload:
a nil or whitespace-only parent temp id resolves to no parent; a
non-blank one resolves through the mapping or defers the descriptor. -/
inductive ParentRes where
  | defer : ParentRes
  | resolved : Option Nat → ParentRes
deriving DecidableEq, Repr

/-- The parent-reference guard of applyCardTreePayload (the conditional
on node.ParentTempID): the mapping is consulted with the raw, untrimmed
parent temp id, exactly as in the source. -/
def parentLookup (idMap : List (String × Nat)) : Option String → ParentRes
  | none => ParentRes.resolved none
  | some pt =>
    if trimSpace pt = "" then ParentRes.resolved none
    else
      match lookupTemp idMap pt with
      | none => ParentRes.defer
      | some pid => ParentRes.resolved (some pid)

/-- The inner annotation loop of applyCardTreePayload: an annotation
whose trimmed body is empty is skipped; otherwise the trimmed kind
defaults to "note" and the row is created.  Writes performed before a
store failure remain in the returned store. -/
def createNodeAnnots (nodeID : Nat) (username : String) :
    List CardTreePayloadAnnot → Store → Store × Option String
  | [], st => (st, none)
  | a :: rest, st =>
    let body := trimSpace a.body
    let label := trimSpace a.label
    let tags := trimSpace a.tags
    if body = "" then createNodeAnnots nodeID username rest st
    else
      let kind := if trimSpace a.kind = "" then "note" else trimSpace a.kind
      match createCardTreeAnnot st nodeID kind body label tags none username with
      | Except.error e => (st, some e)
      | Except.ok (_, st') => createNodeAnnots nodeID username rest st'

/-- Result of one pass of applyCardTreePayload over the pending
descriptor list: the store after the pass's writes, the updated temp-id
mapping, the descriptors deferred to the next pass, the progressed
flag, and the error if the pass aborted. -/
structure PassResult where
  st : Store
  idMap : List (String × Nat)
  remaining : List CardTreePayloadNode
  progressed : Bool
  err : Option String
deriving DecidableEq, Repr

/-- One pass of the resolution loop in applyCardTreePayload: for each
pending descriptor in input order, validate card name and temp id,
defer it when its parent temp id is not yet mapped, and otherwise
create the node (recording its id under its temp id) followed by its
annotations.  Errors abort the pass, keeping the writes made so far. -/
def passNodes (username : String) (treeDBID : Nat) :
    List CardTreePayloadNode → Store → List (String × Nat) → Bool → PassResult
  | [], st, idMap, progressed => ⟨st, idMap, [], progressed, none⟩
  | node :: rest, st, idMap, progressed =>
    if trimSpace node.cardName = "" then ⟨st, idMap, [], progressed, some "card name is required"⟩
    else if trimSpace node.tempID = "" then ⟨st, idMap, [], progressed, some "node id is required"⟩
    else
      match parentLookup idMap node.parentTempID with
      | ParentRes.defer =>
        let r := passNodes username treeDBID rest st idMap progressed
        ⟨r.st, r.idMap, node :: r.remaining, r.progressed, r.err⟩
      | ParentRes.resolved parentID =>
        match createCardTreeNode st treeDBID parentID (trimSpace node.cardName) node.position username with
        | Except.error e => ⟨st, idMap, [], progressed, some e⟩
        | Except.ok (created, st1) =>
          match createNodeAnnots created.id username node.annotations st1 with
          | (st2, some e) => ⟨st2, (node.tempID, created.id) :: idMap, [], true, some e⟩
          | (st2, none) =>
            passNodes username treeDBID rest st2 ((node.tempID, created.id) :: idMap) true

/-- The outer repeat-until-stable loop of applyCardTreePayload: run
passes until the pending set is empty; a pass that makes no progress
while descriptors remain rejects the batch with the resolution error
"invalid tree payload".  Terminates because a progressing pass strictly
shrinks the pending list. -/
def resolveLoop (username : String) (treeDBID : Nat) :
    List CardTreePayloadNode → Store → List (String × Nat) → Store × Option String
  | [], st, _ => (st, none)
  | node :: rest, st, idMap =>
    let r := passNodes username treeDBID (node :: rest) st idMap false
    match r.err with
    | some e => (r.st, some e)
    | none =>
      if h : r.progressed = true then
        resolveLoop username treeDBID r.remaining r.st r.idMap
      else if r.remaining.isEmpty then (r.st, none)
      else (r.st, some "invalid tree payload")
termination_by l _ _ => l.length
decreasing_by
  have key : ∀ (l : List CardTreePayloadNode) (st' : Store) (m : List (String × Nat)) (p : Bool),
      (passNodes username treeDBID l st' m p).remaining.length ≤ l.length ∧
      ((passNodes username treeDBID l st' m p).remaining.length = l.length →
        (passNodes username treeDBID l st' m p).progressed = p) := by
    intro l
    induction l with
    | nil => intro st' m p; simp [passNodes]
    | cons d rest ih =>
      intro st' m p
      simp only [passNodes]
      split
      · simp
      · split
        · simp
        · split
          · obtain ⟨h1, h2⟩ := ih st' m p
            cases hrec : passNodes username treeDBID rest st' m p with
            | mk rst rmap rrem rprog rerr =>
              rw [hrec] at h1 h2
              simp only [hrec, List.length_cons]
              simp only [List.length_cons] at h1 h2
              exact ⟨by omega, fun hl => h2 (by omega)⟩
          · split
            · simp
            · split
              · simp
              · refine ⟨Nat.le_succ_of_le (ih _ _ _).1, fun hl => ?_⟩
                simp only [List.length_cons] at hl
                exact absurd hl (Nat.ne_of_lt (Nat.lt_succ_of_le (ih _ _ _).1))
  have h1 := (key (node :: rest) st idMap false).1
  have h2 := (key (node :: rest) st idMap false).2
  have h' : (passNodes username treeDBID (node :: rest) st idMap false).progressed = true := h
  rcases Nat.lt_or_eq_of_le h1 with hlt | heq
  · exact hlt
  · rw [h2 heq] at h'
    exact absurd h' (by decide)

/-- The per-tree body of applyCardTreePayload: trim and validate the
title, create the tree row first, then run the resolution loop over its
node descriptors (skipped when there are none). -/
def applyTree (st : Store) (scopeType : String) (scopeID : Nat) (username : String)
    (tree : CardTreePayloadTree) : Store × Option String :=
  let title := trimSpace tree.title
  if title = "" then (st, some "tree title is required")
  else
    match createCardTree st scopeType scopeID title (trimSpace tree.description) username tree.isPrimary with
    | Except.error e => (st, some e)
    | Except.ok (cardTree, st1) =>
      if tree.nodes.isEmpty then (st1, none)
      else resolveLoop username cardTree.id tree.nodes st1 []

/-- The loop over the payload's trees in applyCardTreePayload: trees are
materialized one after another; the first failure aborts the submission,
keeping everything already written. -/
def applyTreesLoop (scopeType : String) (scopeID : Nat) (username : String) :
    List CardTreePayloadTree → Store → Store × Option String
  | [], st => (st, none)
  | tree :: rest, st =>
    match applyTree st scopeType scopeID username tree with
    | (st', some e) => (st', some e)
    | (st', none) => applyTreesLoop scopeType scopeID username rest st'

/-- handlers_assets.go applyCardTreePayload: a nil payload or one with no
trees is a no-op; otherwise materialize every tree in order. -/
def applyCardTreePayload (st : Store) (scopeType : String) (scopeID : Nat)
    (username : String) (payload : Option CardTreePayload) : Store × Option String :=
  match payload with
  | none => (st, none)
  | some p =>
    if p.trees.isEmpty then (st, none)
    else applyTreesLoop scopeType scopeID username p.trees st

/-- The raw map key a descriptor's parent reference uses, mirroring the
guard in applyCardTreePayload: none when the parent temp id is absent or
whitespace-only (the descriptor is a root), otherwise the untrimmed id. -/
def nodeParentKey (d : CardTreePayloadNode) : Option String :=
  match d.parentTempID with
  | none => none
  | some pt => if trimSpace pt = "" then none else some pt

/-- Every descriptor in the list passes the per-node validations of
applyCardTreePayload: non-blank card name and non-blank temp id. -/
def ValidNodes (l : List CardTreePayloadNode) : Prop :=
  ∀ d ∈ l, ¬ trimSpace d.cardName = "" ∧ ¬ trimSpace d.tempID = ""

/-- A set `C` of descriptors none of which can ever resolve against the
descriptor pool `L`: each member needs a parent key that only members of
`C` could provide.  Self-cycles, longer cycles and dangling references
are all instances. -/
def StuckOn (L : List CardTreePayloadNode) (C : CardTreePayloadNode → Prop) : Prop :=
  ∀ d, C d → ∃ pt, nodeParentKey d = some pt ∧ ∀ n ∈ L, n.tempID = pt → C n

/-- The temp-id mapping contains no key that a member of `C` waits on. -/
def MapAvoids (C : CardTreePayloadNode → Prop) (m : List (String × Nat)) : Prop :=
  ∀ d, C d → ∀ pt, nodeParentKey d = some pt → lookupTemp m pt = none

/-- Every node row's id is below the store's id counter (true of every
store reachable from emptyStore). -/
def StoreIdsBounded (st : Store) : Prop :=
  ∀ n ∈ st.nodes, n.id < st.nextID

/-- Every value in the temp-id mapping is the id of a node row of the
tree being materialized. -/
def MapResolves (treeDBID : Nat) (m : List (String × Nat)) (st : Store) : Prop :=
  ∀ k v, lookupTemp m k = some v → ∃ pn ∈ st.nodes, pn.id = v ∧ pn.treeID = treeDBID

/-- Fixture: a populated store with two trees under the same board, a
node owned by tree 1 and an annotation row on that node. -/
def fixtureStore : Store :=
  ⟨5, [⟨1, "board", 1, "A", "", "u", false⟩, ⟨2, "board", 1, "B", "", "u", false⟩],
    [⟨3, 1, none, "Root", 0, "u"⟩],
    [⟨4, 3, "note", "hello", "", "", none, "u"⟩]⟩

/-- Fixture: a batch descriptor that names itself as parent. -/
def selfCycleNode : CardTreePayloadNode := ⟨"a", some "a", "Forest", 0, []⟩

/-- Fixture: a batch tree holding only the self-cycle descriptor. -/
def selfCycleTree : CardTreePayloadTree := ⟨"T", "", false, [selfCycleNode]⟩

/-- Fixture: first tree of the two-tree batch: a single root node. -/
def batchTreeA : CardTreePayloadTree := ⟨"Deck A", "", false, [⟨"a", none, "Island", 0, []⟩]⟩

/-- Fixture: second tree of the two-tree batch: a self-cycle, so this
tree can never resolve. -/
def batchTreeB : CardTreePayloadTree := ⟨"Deck B", "", false, [⟨"x", some "x", "Loop", 0, []⟩]⟩

/-- Fixture: a payload whose second tree fails resolution. -/
def mixedPayload : CardTreePayload := ⟨[batchTreeA, batchTreeB]⟩

/-- Fixture: a two-node chain (child listed before its parent). -/
def chainTree : CardTreePayloadTree :=
  ⟨"Chain", "", false, [⟨"b", some "a", "Beta", 1, []⟩, ⟨"a", none, "Alpha", 0, []⟩]⟩

/-- Fixture: a tree whose only node carries one annotation descriptor
with a whitespace-only body. -/
def blankAnnotTree : CardTreePayloadTree :=
  ⟨"T", "", false, [⟨"a", none, "Card", 0, [⟨"", " ", "", ""⟩]⟩]⟩

/-- Fixture: a descriptor whose parent temp id is whitespace-only. -/
def blankParentNode : CardTreePayloadNode := ⟨"n1", some " ", "Root", 0, []⟩

/-- Creating the annotation rows of one node never fails (only non-blank
bodies reach the store) and touches neither the tree rows nor the node
rows; the id counter can only grow. -/
theorem createNodeAnnots_spec (nodeID : Nat) (username : String) :
    ∀ (anns : List CardTreePayloadAnnot) (st : Store),
      (createNodeAnnots nodeID username anns st).1.trees = st.trees ∧
      (createNodeAnnots nodeID username anns st).1.nodes = st.nodes ∧
      st.nextID ≤ (createNodeAnnots nodeID username anns st).1.nextID ∧
      (createNodeAnnots nodeID username anns st).2 = none := by
  intro anns
  induction anns with
  | nil => intro st; simp [createNodeAnnots]
  | cons a rest ih =>
    intro st
    simp only [createNodeAnnots]
    split
    · exact ih st
    · rename_i hbody
      simp only [createCardTreeAnnot, if_neg hbody]
      refine ⟨(ih _).1, (ih _).2.1, ?_, (ih _).2.2.2⟩
      refine Nat.le_trans (Nat.le_succ _) ?_
      exact (ih { st with
        nextID := st.nextID + 1,
        annotations := st.annotations ++ [⟨st.nextID, nodeID,
          (if trimSpace a.kind = "" then "note" else trimSpace a.kind), trimSpace a.body,
          trimSpace a.label, trimSpace a.tags, none, username⟩] }).2.2.1

/-- Descriptors deferred by one pass form a subsequence of the pass's
input, in input order. -/
theorem passNodes_remaining_sublist (username : String) (treeDBID : Nat) :
    ∀ (l : List CardTreePayloadNode) (st : Store) (m : List (String × Nat)) (p : Bool),
      (passNodes username treeDBID l st m p).remaining.Sublist l := by
  intro l
  induction l with
  | nil => intro st m p; simp [passNodes]
  | cons d rest ih =>
    intro st m p
    simp only [passNodes]
    split
    · simp
    · split
      · simp
      · split
        · exact List.Sublist.cons₂ d (ih st m p)
        · split
          · simp
          · split
            · simp
            · exact List.Sublist.cons d (ih _ _ _)

/-- A pass that defers every one of its input descriptors reports
exactly the progress flag it was started with. -/
theorem passNodes_progressed_of_length_eq (username : String) (treeDBID : Nat) :
    ∀ (l : List CardTreePayloadNode) (st : Store) (m : List (String × Nat)) (p : Bool),
      (passNodes username treeDBID l st m p).remaining.length = l.length →
      (passNodes username treeDBID l st m p).progressed = p := by
  intro l
  induction l with
  | nil => intro st m p _; simp [passNodes]
  | cons d rest ih =>
    intro st m p
    simp only [passNodes]
    split
    · simp
    · split
      · simp
      · split
        · intro hlen
          simp only [List.length_cons, Nat.add_right_cancel_iff] at hlen
          exact ih st m p hlen
        · split
          · simp
          · split
            · simp
            · intro hlen
              simp only [List.length_cons] at hlen
              exact absurd hlen (Nat.ne_of_lt (Nat.lt_succ_of_le
                (List.Sublist.length_le (passNodes_remaining_sublist username treeDBID rest _ _ _))))

/-- Unfolding resolveLoop on an empty pending list. -/
theorem resolveLoop_nil (username : String) (treeDBID : Nat) (st : Store)
    (m : List (String × Nat)) : resolveLoop username treeDBID [] st m = (st, none) := by
  simp [resolveLoop]

/-- Unfolding resolveLoop when the pass aborts with an error. -/
theorem resolveLoop_step_err (username : String) (treeDBID : Nat)
    (node : CardTreePayloadNode) (rest rem : List CardTreePayloadNode)
    (st st' : Store) (m m' : List (String × Nat)) (prog : Bool) (e : String)
    (h : passNodes username treeDBID (node :: rest) st m false = ⟨st', m', rem, prog, some e⟩) :
    resolveLoop username treeDBID (node :: rest) st m = (st', some e) := by
  rw [resolveLoop]
  simp [h]

/-- Unfolding resolveLoop when the pass progressed: loop on the
deferred descriptors. -/
theorem resolveLoop_step_progress (username : String) (treeDBID : Nat)
    (node : CardTreePayloadNode) (rest rem : List CardTreePayloadNode)
    (st st' : Store) (m m' : List (String × Nat))
    (h : passNodes username treeDBID (node :: rest) st m false = ⟨st', m', rem, true, none⟩) :
    resolveLoop username treeDBID (node :: rest) st m = resolveLoop username treeDBID rem st' m' := by
  rw [resolveLoop]
  simp [h]

/-- Unfolding resolveLoop when a pass made no progress while descriptors
remain: the batch is rejected with the resolution error. -/
theorem resolveLoop_step_stuck (username : String) (treeDBID : Nat)
    (node node2 : CardTreePayloadNode) (rest rem2 : List CardTreePayloadNode)
    (st st' : Store) (m m' : List (String × Nat))
    (h : passNodes username treeDBID (node :: rest) st m false = ⟨st', m', node2 :: rem2, false, none⟩) :
    resolveLoop username treeDBID (node :: rest) st m = (st', some "invalid tree payload") := by
  rw [resolveLoop]
  simp [h]

/-- Unfolding resolveLoop when a non-progressing pass left nothing
pending (only reachable when the pass consumed nothing of an empty
list; kept for completeness of the case analysis). -/
theorem resolveLoop_step_done (username : String) (treeDBID : Nat)
    (node : CardTreePayloadNode) (rest : List CardTreePayloadNode)
    (st st' : Store) (m m' : List (String × Nat))
    (h : passNodes username treeDBID (node :: rest) st m false = ⟨st', m', [], false, none⟩) :
    resolveLoop username treeDBID (node :: rest) st m = (st', none) := by
  rw [resolveLoop]
  simp [h]

/-- An applyCardTreePayload tree whose trimmed title is blank is
rejected before any store call. -/
theorem applyTree_title_blank (st : Store) (scopeType : String) (scopeID : Nat)
    (username : String) (tree : CardTreePayloadTree)
    (ht : trimSpace tree.title = "") :
    applyTree st scopeType scopeID username tree = (st, some "tree title is required") := by
  simp [applyTree, ht]

/-- With a non-blank title and a non-empty node list, applyTree creates
the tree row and hands its descriptors to the resolution loop. -/
theorem applyTree_eq_loop (st : Store) (scopeType : String) (scopeID : Nat)
    (username : String) (tree : CardTreePayloadTree)
    (ht : ¬ trimSpace tree.title = "") (hn : ¬ tree.nodes.isEmpty = true) :
    applyTree st scopeType scopeID username tree =
      resolveLoop username st.nextID tree.nodes
        { st with
          nextID := st.nextID + 1,
          trees := st.trees ++ [⟨st.nextID, scopeType, scopeID, trimSpace tree.title,
            trimSpace tree.description, username, tree.isPrimary⟩] } [] := by
  simp [applyTree, createCardTree, ht, hn]

/-- Unfolding the per-payload tree loop on an empty list. -/
theorem applyTreesLoop_nil (scopeType : String) (scopeID : Nat) (username : String)
    (st : Store) : applyTreesLoop scopeType scopeID username [] st = (st, none) := rfl

/-- Unfolding the per-payload tree loop when the head tree succeeds. -/
theorem applyTreesLoop_cons_ok (scopeType : String) (scopeID : Nat) (username : String)
    (tree : CardTreePayloadTree) (rest : List CardTreePayloadTree) (st st' : Store)
    (h : applyTree st scopeType scopeID username tree = (st', none)) :
    applyTreesLoop scopeType scopeID username (tree :: rest) st =
      applyTreesLoop scopeType scopeID username rest st' := by
  simp [applyTreesLoop, h]

/-- Unfolding the per-payload tree loop when the head tree fails: the
submission aborts, keeping everything written so far. -/
theorem applyTreesLoop_cons_err (scopeType : String) (scopeID : Nat) (username : String)
    (tree : CardTreePayloadTree) (rest : List CardTreePayloadTree) (st st' : Store) (e : String)
    (h : applyTree st scopeType scopeID username tree = (st', some e)) :
    applyTreesLoop scopeType scopeID username (tree :: rest) st = (st', some e) := by
  simp [applyTreesLoop, h]

/-- A payload with at least one tree is handed tree by tree to the loop. -/
theorem applyCardTreePayload_some (st : Store) (scopeType : String) (scopeID : Nat)
    (username : String) (p : CardTreePayload) (h : ¬ p.trees.isEmpty = true) :
    applyCardTreePayload st scopeType scopeID username (some p) =
      applyTreesLoop scopeType scopeID username p.trees st := by
  simp [applyCardTreePayload, h]

/-- createNode with a non-blank card name always succeeds, appending a
row with the next free id. -/
theorem createCardTreeNode_ok (st : Store) (treeID : Nat) (parentID : Option Nat)
    (cardName : String) (position : Int) (username : String) (h : ¬ cardName = "") :
    createCardTreeNode st treeID parentID cardName position username =
      Except.ok (⟨st.nextID, treeID, parentID, cardName, position, username⟩,
        { st with
          nextID := st.nextID + 1,
          nodes := st.nodes ++ [⟨st.nextID, treeID, parentID, cardName, position, username⟩] }) := by
  simp [createCardTreeNode, h]

/-- Core invariant of one pass over a stuck set `C`: no key a member of
`C` waits on ever enters the mapping, every member of `C` is deferred
again, every node row the pass creates comes from a descriptor outside
`C`, and (descriptors being valid) the pass reports no error. -/
theorem passNodes_stuck (username : String) (treeDBID : Nat)
    (L : List CardTreePayloadNode) (C : CardTreePayloadNode → Prop)
    (hstuck : StuckOn L C) :
    ∀ (l : List CardTreePayloadNode) (st : Store) (m : List (String × Nat)) (p : Bool),
      ValidNodes l → (∀ x ∈ l, x ∈ L) → MapAvoids C m →
      MapAvoids C (passNodes username treeDBID l st m p).idMap ∧
      (∀ d ∈ l, C d → d ∈ (passNodes username treeDBID l st m p).remaining) ∧
      (∀ nn ∈ (passNodes username treeDBID l st m p).st.nodes,
        nn ∈ st.nodes ∨ ∃ d, d ∈ l ∧ ¬ C d ∧ nn.cardName = trimSpace d.cardName) ∧
      (passNodes username treeDBID l st m p).err = none := by
  intro l
  induction l with
  | nil =>
    intro st m p _ _ hm
    refine ⟨hm, by simp [passNodes], ?_, by simp [passNodes]⟩
    intro nn hnn
    exact Or.inl hnn
  | cons d rest ih =>
    intro st m p hv hsub hm
    have hvd := hv d (List.mem_cons_self d rest)
    have hvrest : ValidNodes rest := fun x hx => hv x (List.mem_cons_of_mem d hx)
    have hsubrest : ∀ x ∈ rest, x ∈ L := fun x hx => hsub x (List.mem_cons_of_mem d hx)
    simp only [passNodes]
    rw [if_neg hvd.1, if_neg hvd.2]
    cases hpl : parentLookup m d.parentTempID with
    | defer =>
      dsimp only
      obtain ⟨ih1, ih2, ih3, ih4⟩ := ih st m p hvrest hsubrest hm
      refine ⟨ih1, ?_, ?_, ih4⟩
      · intro x hx hCx
        rcases List.mem_cons.mp hx with hx | hx
        · subst hx; exact List.mem_cons_self x _
        · exact List.mem_cons_of_mem d (ih2 x hx hCx)
      · intro nn hnn
        rcases ih3 nn hnn with hold | ⟨x, hx, hCx, hname⟩
        · exact Or.inl hold
        · exact Or.inr ⟨x, List.mem_cons_of_mem d hx, hCx, hname⟩
    | resolved pid =>
      dsimp only
      have hnotCd : ¬ C d := by
        intro hCd
        obtain ⟨pt, hkey, _⟩ := hstuck d hCd
        have hnone := hm d hCd pt hkey
        cases hdp : d.parentTempID with
        | none => simp [nodeParentKey, hdp] at hkey
        | some pt0 =>
          simp only [nodeParentKey, hdp] at hkey
          by_cases htr : trimSpace pt0 = ""
          · rw [if_pos htr] at hkey
            exact Option.noConfusion hkey
          · rw [if_neg htr] at hkey
            injection hkey with hkey'
            subst hkey'
            rw [hdp] at hpl
            simp only [parentLookup, if_neg htr] at hpl
            rw [hnone] at hpl
            exact ParentRes.noConfusion hpl
      rw [createCardTreeNode_ok st treeDBID pid (trimSpace d.cardName) d.position username hvd.1]
      dsimp only
      have hann := createNodeAnnots_spec st.nextID username d.annotations
        { st with
          nextID := st.nextID + 1,
          nodes := st.nodes ++ [⟨st.nextID, treeDBID, pid, trimSpace d.cardName, d.position, username⟩] }
      cases hcn : createNodeAnnots st.nextID username d.annotations
          { st with
            nextID := st.nextID + 1,
            nodes := st.nodes ++ [⟨st.nextID, treeDBID, pid, trimSpace d.cardName, d.position, username⟩] } with
      | mk st2 e2 =>
      rw [hcn] at hann
      have he2 : e2 = none := hann.2.2.2
      subst he2
      dsimp only
      have hm' : MapAvoids C ((d.tempID, st.nextID) :: m) := by
        intro x hCx pt hkey
        simp only [lookupTemp]
        by_cases heq : d.tempID = pt
        · exfalso
          obtain ⟨pt', hkey', hclosed⟩ := hstuck x hCx
          rw [hkey] at hkey'
          injection hkey' with hkey'
          subst hkey'
          exact hnotCd (hclosed d (hsub d (List.mem_cons_self d rest)) heq)
        · rw [if_neg heq]
          exact hm x hCx pt hkey
      obtain ⟨ih1, ih2, ih3, ih4⟩ := ih st2 ((d.tempID, st.nextID) :: m) true hvrest hsubrest hm'
      refine ⟨ih1, ?_, ?_, ih4⟩
      · intro x hx hCx
        rcases List.mem_cons.mp hx with hx | hx
        · subst hx; exact absurd hCx hnotCd
        · exact ih2 x hx hCx
      · intro nn hnn
        rcases ih3 nn hnn with hold | ⟨x, hx, hCx, hname⟩
        · rw [hann.2.1] at hold
          rcases List.mem_append.mp hold with hold | hnew
          · exact Or.inl hold
          · refine Or.inr ⟨d, List.mem_cons_self d rest, hnotCd, ?_⟩
            rcases List.mem_singleton.mp hnew with rfl
            rfl
        · exact Or.inr ⟨x, List.mem_cons_of_mem d hx, hCx, hname⟩

/-- Core rejection lemma: starting the resolution loop on a pending list
that contains a non-empty stuck set (with otherwise valid descriptors,
and a mapping avoiding the stuck keys) always ends in the resolution
error "invalid tree payload", and every node row created along the way
stems from a descriptor outside the stuck set. -/
theorem resolveLoop_stuck (username : String) (treeDBID : Nat)
    (L : List CardTreePayloadNode) (C : CardTreePayloadNode → Prop)
    (hstuck : StuckOn L C) (hCne : ∃ d, C d) :
    ∀ (n : Nat) (pending : List CardTreePayloadNode) (st : Store) (m : List (String × Nat)),
      pending.length ≤ n →
      ValidNodes pending → (∀ x ∈ pending, x ∈ L) → MapAvoids C m →
      (∀ d, C d → d ∈ pending) →
      (resolveLoop username treeDBID pending st m).2 = some "invalid tree payload" ∧
      ∀ nn ∈ (resolveLoop username treeDBID pending st m).1.nodes,
        nn ∈ st.nodes ∨ ∃ d, d ∈ pending ∧ ¬ C d ∧ nn.cardName = trimSpace d.cardName := by
  intro n
  induction n with
  | zero =>
    intro pending st m hlen _ _ _ hC
    obtain ⟨d0, hd0⟩ := hCne
    have hmem := hC d0 hd0
    cases pending with
    | nil => exact absurd hmem (List.not_mem_nil d0)
    | cons a r => simp at hlen
  | succ k ih =>
    intro pending st m hlen hv hsub hm hC
    cases pending with
    | nil =>
      obtain ⟨d0, hd0⟩ := hCne
      exact absurd (hC d0 hd0) (List.not_mem_nil d0)
    | cons node rest =>
      obtain ⟨hm1, hrem, hnodes, herr⟩ :=
        passNodes_stuck username treeDBID L C hstuck (node :: rest) st m false hv hsub hm
      have hsl := passNodes_remaining_sublist username treeDBID (node :: rest) st m false
      cases hps : passNodes username treeDBID (node :: rest) st m false with
      | mk st' m' rem prog e =>
      rw [hps] at hm1 hrem hnodes herr hsl
      change e = none at herr
      subst herr
      change MapAvoids C m' at hm1
      have hrem' : ∀ d ∈ node :: rest, C d → d ∈ rem := fun d hd hCd => hrem d hd hCd
      have hnodes' : ∀ nn ∈ st'.nodes,
          nn ∈ st.nodes ∨ ∃ d, d ∈ node :: rest ∧ ¬ C d ∧ nn.cardName = trimSpace d.cardName :=
        fun nn hnn => hnodes nn hnn
      have hsl' : rem.Sublist (node :: rest) := hsl
      cases hprog : prog with
      | true =>
        subst hprog
        rw [resolveLoop_step_progress username treeDBID node rest rem st st' m m' hps]
        have hlt : rem.length < (node :: rest).length := by
          rcases Nat.lt_or_eq_of_le (List.Sublist.length_le hsl') with hlt | heq
          · exact hlt
          · exfalso
            have := passNodes_progressed_of_length_eq username treeDBID (node :: rest) st m false
            rw [hps] at this
            have hfalse := this heq
            change true = false at hfalse
            exact Bool.noConfusion hfalse
        have hvrem : ValidNodes rem := fun x hx => hv x (hsl'.subset hx)
        have hsubrem : ∀ x ∈ rem, x ∈ L := fun x hx => hsub x (hsl'.subset hx)
        have hCrem : ∀ d, C d → d ∈ rem := fun d hCd => hrem' d (hC d hCd) hCd
        have hlenrem : rem.length ≤ k := by
          simp only [List.length_cons] at hlt hlen
          omega
        obtain ⟨ihe, ihn⟩ := ih rem st' m' hlenrem hvrem hsubrem hm1 hCrem
        refine ⟨ihe, ?_⟩
        intro nn hnn
        rcases ihn nn hnn with hmid | ⟨d, hd, hCd, hname⟩
        · rcases hnodes' nn hmid with hold | hwit
          · exact Or.inl hold
          · exact Or.inr hwit
        · exact Or.inr ⟨d, hsl'.subset hd, hCd, hname⟩
      | false =>
        subst hprog
        obtain ⟨d0, hd0⟩ := hCne
        have hd0rem : d0 ∈ rem := hrem' d0 (hC d0 hd0) hd0
        cases rem with
        | nil => exact absurd hd0rem (List.not_mem_nil d0)
        | cons n2 r2 =>
          rw [resolveLoop_step_stuck username treeDBID node n2 rest r2 st st' m m' hps]
          exact ⟨rfl, fun nn hnn => hnodes' nn hnn⟩

/-- Inversion: when the parent guard resolves to an actual parent id,
that id came from the temp-id mapping. -/
theorem parentLookup_resolved_some (m : List (String × Nat)) (o : Option String) (pidv : Nat)
    (h : parentLookup m o = ParentRes.resolved (some pidv)) :
    ∃ pt, lookupTemp m pt = some pidv := by
  cases o with
  | none =>
    simp only [parentLookup] at h
    injection h with h'
    exact Option.noConfusion h'
  | some pt =>
    simp only [parentLookup] at h
    by_cases htr : trimSpace pt = ""
    · rw [if_pos htr] at h
      injection h with h'
      exact Option.noConfusion h'
    · rw [if_neg htr] at h
      cases hlk : lookupTemp m pt with
      | none => rw [hlk] at h; exact ParentRes.noConfusion h
      | some v =>
        rw [hlk] at h
        injection h with h'
        injection h' with h''
        exact ⟨pt, by rw [hlk, h'']⟩

/-- Dependency-order invariant of one pass: the pass only appends node
rows; the appended rows, in creation order, correspond (by trimmed card
name, order preserved) to a subsequence of the pass's input; every
appended row belongs to the tree under construction and its parent, if
any, is an earlier-created row of the same tree; id bounds and the
mapping invariant are preserved and the id counter grows. -/
theorem passNodes_new_nodes (username : String) (treeDBID : Nat) :
    ∀ (l : List CardTreePayloadNode) (st : Store) (m : List (String × Nat)) (p : Bool),
      StoreIdsBounded st → MapResolves treeDBID m st →
      ∃ Δ, (passNodes username treeDBID l st m p).st.nodes = st.nodes ++ Δ ∧
        List.Sublist (Δ.map (fun n => n.cardName)) (l.map (fun d => trimSpace d.cardName)) ∧
        (∀ nn ∈ Δ, nn.treeID = treeDBID ∧
          ∀ pid, nn.parentID = some pid →
            ∃ pn, pn ∈ (passNodes username treeDBID l st m p).st.nodes ∧
              pn.id = pid ∧ pn.treeID = treeDBID ∧ pid < nn.id) ∧
        StoreIdsBounded (passNodes username treeDBID l st m p).st ∧
        MapResolves treeDBID (passNodes username treeDBID l st m p).idMap
          (passNodes username treeDBID l st m p).st ∧
        st.nextID ≤ (passNodes username treeDBID l st m p).st.nextID := by
  intro l
  induction l with
  | nil =>
    intro st m p hb hmr
    exact ⟨[], by simp [passNodes], by simp [passNodes], by simp, by simpa [passNodes] using hb,
      by simpa [passNodes] using hmr, by simp [passNodes]⟩
  | cons d rest ih =>
    intro st m p hb hmr
    simp only [passNodes]
    by_cases hc1 : trimSpace d.cardName = ""
    · rw [if_pos hc1]
      exact ⟨[], by simp, by simp, by simp, hb, hmr, Nat.le_refl _⟩
    · rw [if_neg hc1]
      by_cases hc2 : trimSpace d.tempID = ""
      · rw [if_pos hc2]
        exact ⟨[], by simp, by simp, by simp, hb, hmr, Nat.le_refl _⟩
      · rw [if_neg hc2]
        cases hpl : parentLookup m d.parentTempID with
        | defer =>
          dsimp only
          obtain ⟨Δ, h1, h2, h3, h4, h5, h6⟩ := ih st m p hb hmr
          exact ⟨Δ, h1, List.Sublist.cons _ h2, h3, h4, h5, h6⟩
        | resolved pid =>
          dsimp only
          rw [createCardTreeNode_ok st treeDBID pid (trimSpace d.cardName) d.position username hc1]
          dsimp only
          have hann := createNodeAnnots_spec st.nextID username d.annotations
            { st with
              nextID := st.nextID + 1,
              nodes := st.nodes ++ [⟨st.nextID, treeDBID, pid, trimSpace d.cardName, d.position, username⟩] }
          cases hcn : createNodeAnnots st.nextID username d.annotations
              { st with
                nextID := st.nextID + 1,
                nodes := st.nodes ++ [⟨st.nextID, treeDBID, pid, trimSpace d.cardName, d.position, username⟩] } with
          | mk st2 e2 =>
          rw [hcn] at hann
          have he2 : e2 = none := hann.2.2.2
          subst he2
          dsimp only
          have hnodes2 : st2.nodes = st.nodes ++ [⟨st.nextID, treeDBID, pid, trimSpace d.cardName, d.position, username⟩] :=
            hann.2.1
          have hnext2 : st.nextID + 1 ≤ st2.nextID := hann.2.2.1
          have hparent : ∀ pidv, pid = some pidv →
              ∃ pn, pn ∈ st.nodes ∧ pn.id = pidv ∧ pn.treeID = treeDBID ∧ pidv < st.nextID := by
            intro pidv hpid
            subst hpid
            obtain ⟨pt, hlk⟩ := parentLookup_resolved_some m d.parentTempID pidv hpl
            obtain ⟨pn, hpn, hpnid, hpntree⟩ := hmr pt pidv hlk
            exact ⟨pn, hpn, hpnid, hpntree, by rw [← hpnid] at * ; exact hb pn hpn⟩
          have hb2 : StoreIdsBounded st2 := by
            intro nn hnn
            rw [hnodes2] at hnn
            rcases List.mem_append.mp hnn with hold | hnew
            · exact Nat.lt_of_lt_of_le (hb nn hold) (Nat.le_trans (Nat.le_succ _) hnext2)
            · rcases List.mem_singleton.mp hnew with rfl
              exact Nat.lt_of_lt_of_le (Nat.lt_succ_self _) hnext2
          have hmr2 : MapResolves treeDBID ((d.tempID, st.nextID) :: m) st2 := by
            intro k v hlk
            simp only [lookupTemp] at hlk
            by_cases heqk : d.tempID = k
            · rw [if_pos heqk] at hlk
              injection hlk with hlk'
              refine ⟨⟨st.nextID, treeDBID, pid, trimSpace d.cardName, d.position, username⟩, ?_, by rw [hlk'], rfl⟩
              rw [hnodes2]
              exact List.mem_append.mpr (Or.inr (List.mem_singleton.mpr rfl))
            · rw [if_neg heqk] at hlk
              obtain ⟨pn, hpn, hpnid, hpntree⟩ := hmr k v hlk
              refine ⟨pn, ?_, hpnid, hpntree⟩
              rw [hnodes2]
              exact List.mem_append.mpr (Or.inl hpn)
          obtain ⟨Δ', h1, h2, h3, h4, h5, h6⟩ := ih st2 ((d.tempID, st.nextID) :: m) true hb2 hmr2
          refine ⟨⟨st.nextID, treeDBID, pid, trimSpace d.cardName, d.position, username⟩ :: Δ', ?_, ?_, ?_, h4, h5, ?_⟩
          · rw [h1, hnodes2]
            simp [List.append_assoc]
          · simp only [List.map_cons]
            exact List.Sublist.cons₂ _ h2
          · intro nn hnn
            rcases List.mem_cons.mp hnn with rfl | hnn'
            · refine ⟨rfl, ?_⟩
              intro pidv hpid
              obtain ⟨pn, hpn, hpnid, hpntree, hlt⟩ := hparent pidv hpid
              refine ⟨pn, ?_, hpnid, hpntree, hlt⟩
              rw [h1, hnodes2]
              exact List.mem_append.mpr (Or.inl (List.mem_append.mpr (Or.inl hpn)))
            · exact h3 nn hnn'
          · exact Nat.le_trans (Nat.le_trans (Nat.le_succ _) hnext2) h6

/-- Dependency-order invariant of the whole resolution loop: whatever
the outcome, the loop only appends node rows of the tree under
construction, and every appended row's parent, if any, is an
earlier-created row of the same tree (its id is smaller). -/
theorem resolveLoop_new_nodes (username : String) (treeDBID : Nat) :
    ∀ (n : Nat) (pending : List CardTreePayloadNode) (st : Store) (m : List (String × Nat)),
      pending.length ≤ n →
      StoreIdsBounded st → MapResolves treeDBID m st →
      ∃ Δ, (resolveLoop username treeDBID pending st m).1.nodes = st.nodes ++ Δ ∧
        (∀ nn ∈ Δ, nn.treeID = treeDBID ∧
          ∀ pid, nn.parentID = some pid →
            ∃ pn, pn ∈ (resolveLoop username treeDBID pending st m).1.nodes ∧
              pn.id = pid ∧ pn.treeID = treeDBID ∧ pid < nn.id) ∧
        StoreIdsBounded (resolveLoop username treeDBID pending st m).1 := by
  intro n
  induction n with
  | zero =>
    intro pending st m hlen hb hmr
    cases pending with
    | nil =>
      rw [resolveLoop_nil]
      exact ⟨[], by simp, by simp, hb⟩
    | cons a r => simp at hlen
  | succ k ih =>
    intro pending st m hlen hb hmr
    cases pending with
    | nil =>
      rw [resolveLoop_nil]
      exact ⟨[], by simp, by simp, hb⟩
    | cons node rest =>
      obtain ⟨Δ1, q1, q2, q3, q4, q5, q6⟩ :=
        passNodes_new_nodes username treeDBID (node :: rest) st m false hb hmr
      have hsl := passNodes_remaining_sublist username treeDBID (node :: rest) st m false
      have hpr := passNodes_progressed_of_length_eq username treeDBID (node :: rest) st m false
      cases hps : passNodes username treeDBID (node :: rest) st m false with
      | mk st' m' rem prog e =>
      rw [hps] at q1 q3 q4 q5 q6 hsl hpr
      change st'.nodes = st.nodes ++ Δ1 at q1
      change StoreIdsBounded st' at q4
      change MapResolves treeDBID m' st' at q5
      have q3' : ∀ nn ∈ Δ1, nn.treeID = treeDBID ∧
          ∀ pid, nn.parentID = some pid →
            ∃ pn, pn ∈ st'.nodes ∧ pn.id = pid ∧ pn.treeID = treeDBID ∧ pid < nn.id :=
        fun nn hnn => q3 nn hnn
      cases e with
      | some err =>
        rw [resolveLoop_step_err username treeDBID node rest rem st st' m m' prog err hps]
        exact ⟨Δ1, q1, q3', q4⟩
      | none =>
        cases prog with
        | true =>
          rw [resolveLoop_step_progress username treeDBID node rest rem st st' m m' hps]
          have hlt : rem.length < (node :: rest).length := by
            rcases Nat.lt_or_eq_of_le (List.Sublist.length_le hsl) with hlt | heq
            · exact hlt
            · exfalso
              have hfalse := hpr heq
              change true = false at hfalse
              exact Bool.noConfusion hfalse
          have hlenrem : rem.length ≤ k := by
            simp only [List.length_cons] at hlt hlen
            omega
          obtain ⟨Δ2, r1, r2, r3⟩ := ih rem st' m' hlenrem q4 q5
          refine ⟨Δ1 ++ Δ2, by rw [r1, q1, List.append_assoc], ?_, r3⟩
          intro nn hnn
          rcases List.mem_append.mp hnn with h1 | h2
          · obtain ⟨ht, hp⟩ := q3' nn h1
            refine ⟨ht, ?_⟩
            intro pid hpid
            obtain ⟨pn, hpn, hpnid, hpntree, hplt⟩ := hp pid hpid
            refine ⟨pn, ?_, hpnid, hpntree, hplt⟩
            rw [r1]
            exact List.mem_append.mpr (Or.inl hpn)
          · exact r2 nn h2
        | false =>
          cases rem with
          | nil =>
            rw [resolveLoop_step_done username treeDBID node rest st st' m m' hps]
            exact ⟨Δ1, q1, q3', q4⟩
          | cons n2 r2 =>
            rw [resolveLoop_step_stuck username treeDBID node n2 rest r2 st st' m m' hps]
            exact ⟨Δ1, q1, q3', q4⟩

/-- Dependency order at the level of one payload tree: applyTree only
appends node rows, and each appended row's parent, if any, is an
earlier-created row of the same tree. -/
theorem applyTree_new_nodes (st : Store) (scopeType : String) (scopeID : Nat)
    (username : String) (tree : CardTreePayloadTree) (hb : StoreIdsBounded st) :
    ∃ Δ, (applyTree st scopeType scopeID username tree).1.nodes = st.nodes ++ Δ ∧
      (∀ nn ∈ Δ, ∀ pid, nn.parentID = some pid →
        ∃ pn, pn ∈ (applyTree st scopeType scopeID username tree).1.nodes ∧
          pn.id = pid ∧ pn.treeID = nn.treeID ∧ pid < nn.id) ∧
      StoreIdsBounded (applyTree st scopeType scopeID username tree).1 := by
  by_cases ht : trimSpace tree.title = ""
  · rw [applyTree_title_blank st scopeType scopeID username tree ht]
    exact ⟨[], by simp, by simp, hb⟩
  · by_cases hn : tree.nodes.isEmpty = true
    · have : applyTree st scopeType scopeID username tree =
          ({ st with
            nextID := st.nextID + 1,
            trees := st.trees ++ [⟨st.nextID, scopeType, scopeID, trimSpace tree.title,
              trimSpace tree.description, username, tree.isPrimary⟩] }, none) := by
        simp [applyTree, createCardTree, ht, hn]
      rw [this]
      refine ⟨[], by simp, by simp, ?_⟩
      intro nn hnn
      exact Nat.lt_trans (hb nn hnn) (Nat.lt_succ_self _)
    · rw [applyTree_eq_loop st scopeType scopeID username tree ht hn]
      have hb1 : StoreIdsBounded
          { st with
            nextID := st.nextID + 1,
            trees := st.trees ++ [⟨st.nextID, scopeType, scopeID, trimSpace tree.title,
              trimSpace tree.description, username, tree.isPrimary⟩] } := by
        intro nn hnn
        exact Nat.lt_trans (hb nn hnn) (Nat.lt_succ_self _)
      have hmr1 : MapResolves st.nextID ([] : List (String × Nat))
          { st with
            nextID := st.nextID + 1,
            trees := st.trees ++ [⟨st.nextID, scopeType, scopeID, trimSpace tree.title,
              trimSpace tree.description, username, tree.isPrimary⟩] } := by
        intro k v hlk
        exact Option.noConfusion hlk
      obtain ⟨Δ, r1, r2, r3⟩ := resolveLoop_new_nodes username st.nextID tree.nodes.length
        tree.nodes _ [] (Nat.le_refl _) hb1 hmr1
      refine ⟨Δ, r1, ?_, r3⟩
      intro nn hnn pid hpid
      obtain ⟨ht', hp⟩ := r2 nn hnn
      obtain ⟨pn, hpn, hpnid, hpntree, hplt⟩ := hp pid hpid
      exact ⟨pn, hpn, hpnid, by rw [hpntree, ht'], hplt⟩

/-- Dependency order across a whole multi-tree payload: the loop only
appends node rows, each with a same-tree, earlier-created parent when a
parent is present. -/
theorem applyTreesLoop_new_nodes (scopeType : String) (scopeID : Nat) (username : String) :
    ∀ (trees : List CardTreePayloadTree) (st : Store), StoreIdsBounded st →
      ∃ Δ, (applyTreesLoop scopeType scopeID username trees st).1.nodes = st.nodes ++ Δ ∧
        (∀ nn ∈ Δ, ∀ pid, nn.parentID = some pid →
          ∃ pn, pn ∈ (applyTreesLoop scopeType scopeID username trees st).1.nodes ∧
            pn.id = pid ∧ pn.treeID = nn.treeID ∧ pid < nn.id) ∧
        StoreIdsBounded (applyTreesLoop scopeType scopeID username trees st).1 := by
  intro trees
  induction trees with
  | nil =>
    intro st hb
    rw [applyTreesLoop_nil]
    exact ⟨[], by simp, by simp, hb⟩
  | cons tree rest ih =>
    intro st hb
    obtain ⟨Δ1, q1, q2, q3⟩ := applyTree_new_nodes st scopeType scopeID username tree hb
    cases happly : applyTree st scopeType scopeID username tree with
    | mk st' e =>
    rw [happly] at q1 q2 q3
    change st'.nodes = st.nodes ++ Δ1 at q1
    change StoreIdsBounded st' at q3
    have q2' : ∀ nn ∈ Δ1, ∀ pid, nn.parentID = some pid →
        ∃ pn, pn ∈ st'.nodes ∧ pn.id = pid ∧ pn.treeID = nn.treeID ∧ pid < nn.id :=
      fun nn hnn => q2 nn hnn
    cases e with
    | some err =>
      rw [applyTreesLoop_cons_err scopeType scopeID username tree rest st st' err happly]
      exact ⟨Δ1, q1, q2', q3⟩
    | none =>
      rw [applyTreesLoop_cons_ok scopeType scopeID username tree rest st st' happly]
      obtain ⟨Δ2, r1, r2, r3⟩ := ih st' q3
      refine ⟨Δ1 ++ Δ2, by rw [r1, q1, List.append_assoc], ?_, r3⟩
      intro nn hnn pid hpid
      rcases List.mem_append.mp hnn with h1 | h2
      · obtain ⟨pn, hpn, hpnid, hpntree, hplt⟩ := q2' nn h1 pid hpid
        refine ⟨pn, ?_, hpnid, hpntree, hplt⟩
        rw [r1]
        exact List.mem_append.mpr (Or.inl hpn)
      · exact r2 nn h2 pid hpid

/-- C10: a PATCH of a node whose decoded card_name is empty is rejected
as a 400 client error with the store returned untouched, for every
store — in particular even when the addressed node does not exist — so
the validation fires before any store access and no mutation occurs. -/
theorem claim_C10_patch_blank_card_name (st : Store) (treeID nodeID : Nat)
    (req : NodeUpdateRequest) (h : req.cardName = "") :
    treeNodeHandlerPatch st treeID nodeID req = (HResp.badRequest "Card name is required", st) := by
  simp [treeNodeHandlerPatch, h]

/-- C10 witness: the validation fires on the empty store, where node 5
does not exist. -/
theorem claim_C10_witness :
    (NodeUpdateRequest.mk none "" 0).cardName = "" ∧
    getCardTreeNodeTreeID emptyStore 5 = none ∧
    treeNodeHandlerPatch emptyStore 1 5 (NodeUpdateRequest.mk none "" 0) =
      (HResp.badRequest "Card name is required", emptyStore) :=
  ⟨rfl, by decide, claim_C10_patch_blank_card_name emptyStore 1 5 (NodeUpdateRequest.mk none "" 0) rfl⟩

/-- C9: parseCardTreePayload yields (nil, nil) both on whitespace-only
input and on a decoded document with an empty trees list; and
applyCardTreePayload is a no-op (returns the store unchanged, no error)
on a nil payload or an empty trees list. -/
theorem claim_C9_empty_payloads :
    (∀ (raw : String) (unmarshal : String → Except String CardTreePayload),
      trimSpace raw = "" → parseCardTreePayload raw unmarshal = Except.ok none) ∧
    (∀ (raw : String) (unmarshal : String → Except String CardTreePayload) (p : CardTreePayload),
      unmarshal (trimSpace raw) = Except.ok p → p.trees = [] →
      parseCardTreePayload raw unmarshal = Except.ok none) ∧
    (∀ (st : Store) (scopeType : String) (scopeID : Nat) (username : String),
      applyCardTreePayload st scopeType scopeID username none = (st, none)) ∧
    (∀ (st : Store) (scopeType : String) (scopeID : Nat) (username : String) (p : CardTreePayload),
      p.trees = [] → applyCardTreePayload st scopeType scopeID username (some p) = (st, none)) := by
  refine ⟨?_, ?_, ?_, ?_⟩
  · intro raw unmarshal h
    simp [parseCardTreePayload, h]
  · intro raw unmarshal p hu hp
    by_cases h : trimSpace raw = ""
    · simp [parseCardTreePayload, h]
    · simp [parseCardTreePayload, h, hu, hp]
  · intro st scopeType scopeID username
    rfl
  · intro st scopeType scopeID username p hp
    simp [applyCardTreePayload, hp]

/-- C9 witness: whitespace-only input, an empty decoded trees list, a
nil payload and an empty payload, all on the populated fixture store. -/
theorem claim_C9_witness :
    (trimSpace "  " = "" ∧ (CardTreePayload.mk []).trees = []) ∧
    parseCardTreePayload "  " (fun _ => (Except.error "boom" : Except String CardTreePayload)) = Except.ok none ∧
    parseCardTreePayload "x" (fun _ => (Except.ok (CardTreePayload.mk []) : Except String CardTreePayload)) = Except.ok none ∧
    applyCardTreePayload fixtureStore "post" 9 "u" none = (fixtureStore, none) ∧
    applyCardTreePayload fixtureStore "post" 9 "u" (some (CardTreePayload.mk [])) = (fixtureStore, none) :=
  ⟨⟨by decide, rfl⟩,
    claim_C9_empty_payloads.1 "  " (fun _ => (Except.error "boom" : Except String CardTreePayload)) (by decide),
    claim_C9_empty_payloads.2.1 "x" (fun _ => (Except.ok (CardTreePayload.mk []) : Except String CardTreePayload)) (CardTreePayload.mk []) rfl rfl,
    claim_C9_empty_payloads.2.2.1 fixtureStore "post" 9 "u",
    claim_C9_empty_payloads.2.2.2 fixtureStore "post" 9 "u" (CardTreePayload.mk []) rfl⟩

/-- C8: a descriptor whose parent temp id is present but whitespace-only
is ready immediately: the pass creates it as a root row (nil parent id)
and records its temp id, rather than deferring it as a dangling
reference. -/
theorem claim_C8_blank_parent_is_root (username : String) (treeDBID : Nat)
    (node : CardTreePayloadNode) (rest : List CardTreePayloadNode)
    (st : Store) (m : List (String × Nat)) (p : Bool) (pt : String)
    (hpt : node.parentTempID = some pt) (hblank : trimSpace pt = "")
    (hname : ¬ trimSpace node.cardName = "") (htid : ¬ trimSpace node.tempID = "") :
    ∃ st2, passNodes username treeDBID (node :: rest) st m p =
        passNodes username treeDBID rest st2 ((node.tempID, st.nextID) :: m) true ∧
      (⟨st.nextID, treeDBID, none, trimSpace node.cardName, node.position, username⟩ : CardTreeNode) ∈ st2.nodes := by
  simp only [passNodes]
  rw [if_neg hname, if_neg htid, hpt]
  simp only [parentLookup, if_pos hblank]
  rw [createCardTreeNode_ok st treeDBID none (trimSpace node.cardName) node.position username hname]
  dsimp only
  have hann := createNodeAnnots_spec st.nextID username node.annotations
    { st with
      nextID := st.nextID + 1,
      nodes := st.nodes ++ [⟨st.nextID, treeDBID, none, trimSpace node.cardName, node.position, username⟩] }
  cases hcn : createNodeAnnots st.nextID username node.annotations
      { st with
        nextID := st.nextID + 1,
        nodes := st.nodes ++ [⟨st.nextID, treeDBID, none, trimSpace node.cardName, node.position, username⟩] } with
  | mk st2 e2 =>
  rw [hcn] at hann
  have he2 : e2 = none := hann.2.2.2
  subst he2
  dsimp only
  refine ⟨st2, rfl, ?_⟩
  rw [hann.2.1]
  exact List.mem_append.mpr (Or.inr (List.mem_singleton.mpr rfl))

/-- C8 witness: the whitespace-parent fixture descriptor becomes a root
row in the created store. -/
theorem claim_C8_witness :
    (blankParentNode.parentTempID = some " " ∧ trimSpace " " = "" ∧
      ¬ trimSpace blankParentNode.cardName = "" ∧ ¬ trimSpace blankParentNode.tempID = "") ∧
    ∃ st2, passNodes "u" 1 [blankParentNode] emptyStore [] false =
        passNodes "u" 1 [] st2 ((blankParentNode.tempID, emptyStore.nextID) :: []) true ∧
      (⟨emptyStore.nextID, 1, none, trimSpace blankParentNode.cardName, blankParentNode.position, "u"⟩ : CardTreeNode) ∈ st2.nodes :=
  ⟨⟨rfl, by decide, by decide, by decide⟩,
    claim_C8_blank_parent_is_root "u" 1 blankParentNode [] emptyStore [] false " "
      rfl (by decide) (by decide) (by decide)⟩

/-- C1 counterexample: DELETE of an annotation under a path whose treeID
(2) is not the addressed node's owning tree (1) silently succeeds with
204 and deletes the row — the handler reads only the annotationID
segment and performs no ownership check, refuting the claim for this
endpoint. -/
theorem claim_C1_counterexample :
    getCardTreeNodeTreeID fixtureStore 3 = some 1 ∧ ¬ (1 : Nat) = 2 ∧
    treeNodeAnnotationHandlerDelete fixtureStore 2 3 4 =
      (HResp.noContent, ⟨5, fixtureStore.trees, fixtureStore.nodes, []⟩) := by
  decide

/-- C1 (amended): the three endpoints PATCH node, DELETE node and POST
node annotations do verify the node's owning tree against the path's
treeID; a mismatch is answered with the 400 client error "Node does not
belong to tree" (distinct from the 404 NotFound response) and the store
is untouched.  (The DELETE-annotation endpoint performs no such check,
see the counterexample.) -/
theorem claim_C1_cross_tree_mismatch (st : Store) (treeID nodeID actual : Nat)
    (username : String) (req : NodeUpdateRequest) (areq : AnnotCreateRequest)
    (hlook : getCardTreeNodeTreeID st nodeID = some actual)
    (hne : ¬ actual = treeID) (hname : ¬ req.cardName = "") :
    treeNodeHandlerPatch st treeID nodeID req = (HResp.badRequest "Node does not belong to tree", st) ∧
    treeNodeHandlerDelete st treeID nodeID = (HResp.badRequest "Node does not belong to tree", st) ∧
    treeNodeAnnotationsHandlerPost st treeID nodeID username areq =
      (HResp.badRequest "Node does not belong to tree", st) ∧
    ∀ msg msg2, ¬ (HResp.badRequest msg = HResp.notFoundResp msg2) := by
  refine ⟨?_, ?_, ?_, fun msg msg2 h => HResp.noConfusion h⟩
  · simp [treeNodeHandlerPatch, hname, hlook, hne]
  · simp [treeNodeHandlerDelete, hlook, hne]
  · simp [treeNodeAnnotationsHandlerPost, hlook, hne]

/-- C1 witness: node 3 belongs to tree 1, the paths claim tree 2. -/
theorem claim_C1_witness :
    (getCardTreeNodeTreeID fixtureStore 3 = some 1 ∧ ¬ (1 : Nat) = 2 ∧
      ¬ (NodeUpdateRequest.mk none "X" 0).cardName = "") ∧
    treeNodeHandlerPatch fixtureStore 2 3 (NodeUpdateRequest.mk none "X" 0) =
      (HResp.badRequest "Node does not belong to tree", fixtureStore) ∧
    treeNodeHandlerDelete fixtureStore 2 3 =
      (HResp.badRequest "Node does not belong to tree", fixtureStore) ∧
    treeNodeAnnotationsHandlerPost fixtureStore 2 3 "u" (AnnotCreateRequest.mk "" "body" "" "" none) =
      (HResp.badRequest "Node does not belong to tree", fixtureStore) ∧
    ∀ msg msg2, ¬ (HResp.badRequest msg = HResp.notFoundResp msg2) :=
  ⟨⟨by decide, by decide, by decide⟩,
    claim_C1_cross_tree_mismatch fixtureStore 2 3 1 "u" (NodeUpdateRequest.mk none "X" 0)
      (AnnotCreateRequest.mk "" "body" "" "" none) (by decide) (by decide) (by decide)⟩

/-- C5: POST of a node under tree 2 whose parent_id (3) is a node of
tree 1 is accepted: the handler validates only the card name and calls
createNode directly, which per the spec performs no cross-tree parent
check either, so a node of tree 2 with a tree-1 parent is persisted and
returned as success — the claimed rejection does not happen anywhere. -/
theorem claim_C5_cross_tree_parent_accepted :
    treeNodesHandlerPost fixtureStore 2 "u" (NodeCreateRequest.mk (some 3) "Child" 0) =
      (HResp.okNode ⟨5, 2, some 3, "Child", 0, "u"⟩,
        ⟨6, fixtureStore.trees, fixtureStore.nodes ++ [⟨5, 2, some 3, "Child", 0, "u"⟩],
          fixtureStore.annotations⟩) ∧
    (⟨3, 1, none, "Root", 0, "u"⟩ : CardTreeNode) ∈ fixtureStore.nodes ∧ ¬ (1 : Nat) = 2 := by
  decide

/-- C6 counterexample: a whitespace-only title (" ") passes the REST
handler's untrimmed emptiness check; the store call is made and a tree
row with the whitespace title is persisted and returned as success, so
the request is not rejected and a store mutation is attempted. -/
theorem claim_C6_counterexample :
    trimSpace " " = "" ∧
    boardTreesHandlerPost emptyStore 1 "u" (TreeCreateRequest.mk " " "" false) =
      (HResp.okTree ⟨1, "board", 1, " ", "", "u", false⟩,
        ⟨2, [⟨1, "board", 1, " ", "", "u", false⟩], [], []⟩) := by
  decide

/-- C6 (amended): the REST tree-creation handlers reject exactly-empty
titles as 400 client errors with no store call; in the batch path the
title is trimmed first, so a whitespace-only title is rejected there
with the validation error before any store mutation.  (A
whitespace-only title on the REST path is not rejected, see the
counterexample.) -/
theorem claim_C6_title_validation (st : Store) (boardID threadID scopeID : Nat)
    (username scopeType : String) (req : TreeCreateRequest) (tree : CardTreePayloadTree)
    (hreq : req.title = "") (htree : trimSpace tree.title = "") :
    boardTreesHandlerPost st boardID username req = (HResp.badRequest "Title is required", st) ∧
    threadTreesHandlerPost st threadID username req = (HResp.badRequest "Title is required", st) ∧
    applyTree st scopeType scopeID username tree = (st, some "tree title is required") :=
  ⟨by simp [boardTreesHandlerPost, hreq], by simp [threadTreesHandlerPost, hreq],
    applyTree_title_blank st scopeType scopeID username tree htree⟩

/-- C6 witness: an exactly-empty REST title and a whitespace-only batch
title, both rejected with the store unchanged. -/
theorem claim_C6_witness :
    ((TreeCreateRequest.mk "" "d" false).title = "" ∧
      trimSpace (CardTreePayloadTree.mk "  " "" false []).title = "") ∧
    boardTreesHandlerPost fixtureStore 1 "u" (TreeCreateRequest.mk "" "d" false) =
      (HResp.badRequest "Title is required", fixtureStore) ∧
    threadTreesHandlerPost fixtureStore 1 "u" (TreeCreateRequest.mk "" "d" false) =
      (HResp.badRequest "Title is required", fixtureStore) ∧
    applyTree fixtureStore "post" 9 "u" (CardTreePayloadTree.mk "  " "" false []) =
      (fixtureStore, some "tree title is required") :=
  ⟨⟨rfl, by decide⟩,
    claim_C6_title_validation fixtureStore 1 1 9 "u" "post" (TreeCreateRequest.mk "" "d" false)
      (CardTreePayloadTree.mk "  " "" false []) rfl (by decide)⟩

/-- C3: a batch tree whose (otherwise valid) descriptors contain a
non-empty stuck set — descriptors whose parent keys only members of the
set could ever provide, which covers a self-cycle, a longer cycle, and
a dangling reference to a temp id absent from the batch — is rejected
by applyTree with the resolution error "invalid tree payload", and no
node row is ever created from a stuck descriptor (so none of them is
silently treated as a root). -/
theorem claim_C3_unresolvable_rejected (st : Store) (scopeType : String) (scopeID : Nat)
    (username : String) (tree : CardTreePayloadTree) (C : CardTreePayloadNode → Prop)
    (hvalid : ValidNodes tree.nodes) (hstuck : StuckOn tree.nodes C)
    (hsub : ∀ d, C d → d ∈ tree.nodes) (hne : ∃ d, C d)
    (htitle : ¬ trimSpace tree.title = "") :
    (applyTree st scopeType scopeID username tree).2 = some "invalid tree payload" ∧
    ∀ nn ∈ (applyTree st scopeType scopeID username tree).1.nodes,
      nn ∈ st.nodes ∨ ∃ d, d ∈ tree.nodes ∧ ¬ C d ∧ nn.cardName = trimSpace d.cardName := by
  have hnodesne : ¬ tree.nodes.isEmpty = true := by
    obtain ⟨d0, hd0⟩ := hne
    have hmem := hsub d0 hd0
    cases htn : tree.nodes with
    | nil => rw [htn] at hmem; exact absurd hmem (List.not_mem_nil d0)
    | cons a r => simp
  rw [applyTree_eq_loop st scopeType scopeID username tree htitle hnodesne]
  have hma : MapAvoids C ([] : List (String × Nat)) := fun d _ pt _ => rfl
  obtain ⟨he, hn⟩ := resolveLoop_stuck username st.nextID tree.nodes C hstuck hne
    tree.nodes.length tree.nodes
    { st with
      nextID := st.nextID + 1,
      trees := st.trees ++ [⟨st.nextID, scopeType, scopeID, trimSpace tree.title,
        trimSpace tree.description, username, tree.isPrimary⟩] } []
    (Nat.le_refl _) hvalid (fun x hx => hx) hma hsub
  exact ⟨he, fun nn hnn => hn nn hnn⟩

/-- C3 witness: the self-cycle fixture tree is rejected and creates no
node row at all. -/
theorem claim_C3_witness :
    (ValidNodes selfCycleTree.nodes ∧ StuckOn selfCycleTree.nodes (fun d => d = selfCycleNode) ∧
      (∀ d, d = selfCycleNode → d ∈ selfCycleTree.nodes) ∧ (∃ d, d = selfCycleNode) ∧
      ¬ trimSpace selfCycleTree.title = "") ∧
    (applyTree emptyStore "post" 1 "u" selfCycleTree).2 = some "invalid tree payload" ∧
    ∀ nn ∈ (applyTree emptyStore "post" 1 "u" selfCycleTree).1.nodes,
      nn ∈ emptyStore.nodes ∨ ∃ d, d ∈ selfCycleTree.nodes ∧ ¬ d = selfCycleNode ∧
        nn.cardName = trimSpace d.cardName :=
  ⟨⟨(by decide : ∀ d ∈ selfCycleTree.nodes, ¬ trimSpace d.cardName = "" ∧ ¬ trimSpace d.tempID = ""),
    fun d hd => by
      subst hd
      exact ⟨"a", by decide, by decide⟩,
    fun d hd => by
      subst hd
      decide,
    ⟨selfCycleNode, rfl⟩,
    by decide⟩,
  claim_C3_unresolvable_rejected emptyStore "post" 1 "u" selfCycleTree (fun d => d = selfCycleNode)
    (by decide : ∀ d ∈ selfCycleTree.nodes, ¬ trimSpace d.cardName = "" ∧ ¬ trimSpace d.tempID = "")
    (fun d hd => by
      subst hd
      exact ⟨"a", by decide, by decide⟩)
    (fun d hd => by
      subst hd
      decide)
    ⟨selfCycleNode, rfl⟩
    (by decide)⟩

/-- C4: in every batch materialization (whatever its outcome, hence in
particular in every successful one) node rows are only appended, and
every appended row whose parent id is set points at an
earlier-created row (smaller id) of the same tree — the id resolved for
its parent temp id; moreover, within any single pass, the created rows
correspond in order to a subsequence of the pass's input descriptors
(ready descriptors are processed in input order). -/
theorem claim_C4_dependency_order (st : Store) (scopeType : String) (scopeID : Nat)
    (username : String) (payload : Option CardTreePayload) (hb : StoreIdsBounded st) :
    (∃ Δ, (applyCardTreePayload st scopeType scopeID username payload).1.nodes = st.nodes ++ Δ ∧
      ∀ nn ∈ Δ, ∀ pid, nn.parentID = some pid →
        ∃ pn, pn ∈ (applyCardTreePayload st scopeType scopeID username payload).1.nodes ∧
          pn.id = pid ∧ pn.treeID = nn.treeID ∧ pid < nn.id) ∧
    (∀ (treeDBID : Nat) (l : List CardTreePayloadNode) (st2 : Store)
        (m : List (String × Nat)) (p : Bool),
      StoreIdsBounded st2 → MapResolves treeDBID m st2 →
      ∃ Δ, (passNodes username treeDBID l st2 m p).st.nodes = st2.nodes ++ Δ ∧
        List.Sublist (Δ.map (fun nn => nn.cardName)) (l.map (fun d => trimSpace d.cardName))) := by
  constructor
  · cases payload with
    | none => exact ⟨[], by simp [applyCardTreePayload], by simp⟩
    | some p =>
      by_cases hp : p.trees.isEmpty = true
      · refine ⟨[], ?_, by simp⟩
        simp [applyCardTreePayload, hp]
      · rw [applyCardTreePayload_some st scopeType scopeID username p hp]
        obtain ⟨Δ, r1, r2, _⟩ := applyTreesLoop_new_nodes scopeType scopeID username p.trees st hb
        exact ⟨Δ, r1, r2⟩
  · intro treeDBID l st2 m p hb2 hmr2
    obtain ⟨Δ, r1, r2, _⟩ := passNodes_new_nodes username treeDBID l st2 m p hb2 hmr2
    exact ⟨Δ, r1, r2⟩

/-- C4 witness: the chain payload (child listed before parent) on the
empty store. -/
theorem claim_C4_witness :
    StoreIdsBounded emptyStore ∧
    ((∃ Δ, (applyCardTreePayload emptyStore "post" 1 "u" (some (CardTreePayload.mk [chainTree]))).1.nodes =
        emptyStore.nodes ++ Δ ∧
      ∀ nn ∈ Δ, ∀ pid, nn.parentID = some pid →
        ∃ pn, pn ∈ (applyCardTreePayload emptyStore "post" 1 "u" (some (CardTreePayload.mk [chainTree]))).1.nodes ∧
          pn.id = pid ∧ pn.treeID = nn.treeID ∧ pid < nn.id) ∧
    (∀ (treeDBID : Nat) (l : List CardTreePayloadNode) (st2 : Store)
        (m : List (String × Nat)) (p : Bool),
      StoreIdsBounded st2 → MapResolves treeDBID m st2 →
      ∃ Δ, (passNodes "u" treeDBID l st2 m p).st.nodes = st2.nodes ++ Δ ∧
        List.Sublist (Δ.map (fun nn => nn.cardName)) (l.map (fun d => trimSpace d.cardName)))) :=
  ⟨fun n hn => absurd hn (List.not_mem_nil n),
    claim_C4_dependency_order emptyStore "post" 1 "u" (some (CardTreePayload.mk [chainTree]))
      (fun n hn => absurd hn (List.not_mem_nil n))⟩

/-- C2: evaluation of the two-tree batch whose second tree is a
self-cycle: the submission is rejected with the resolution error, yet
the store keeps BOTH tree rows and the first tree's node — rows created
before the failure are not rolled back, contradicting the claim that no
tree row or node from the batch remains committed.  (The failing tree
itself does persist zero nodes.) -/
theorem claim_C2_batch_not_atomic :
    (applyCardTreePayload emptyStore "post" 7 "u" (some mixedPayload)).2 = some "invalid tree payload" ∧
    (applyCardTreePayload emptyStore "post" 7 "u" (some mixedPayload)).1.trees =
      [⟨1, "post", 7, "Deck A", "", "u", false⟩, ⟨3, "post", 7, "Deck B", "", "u", false⟩] ∧
    (applyCardTreePayload emptyStore "post" 7 "u" (some mixedPayload)).1.nodes =
      [⟨2, 1, none, "Island", 0, "u"⟩] := by
  have e1 : passNodes "u" 1 [⟨"a", none, "Island", 0, []⟩]
      ⟨2, [⟨1, "post", 7, "Deck A", "", "u", false⟩], [], []⟩ [] false =
      ⟨⟨3, [⟨1, "post", 7, "Deck A", "", "u", false⟩], [⟨2, 1, none, "Island", 0, "u"⟩], []⟩,
        [("a", 2)], [], true, none⟩ := by decide
  have hA : applyTree emptyStore "post" 7 "u" batchTreeA =
      (⟨3, [⟨1, "post", 7, "Deck A", "", "u", false⟩], [⟨2, 1, none, "Island", 0, "u"⟩], []⟩, none) := by
    show resolveLoop "u" 1 [⟨"a", none, "Island", 0, []⟩]
      ⟨2, [⟨1, "post", 7, "Deck A", "", "u", false⟩], [], []⟩ [] = _
    rw [resolveLoop_step_progress "u" 1 ⟨"a", none, "Island", 0, []⟩ [] []
      ⟨2, [⟨1, "post", 7, "Deck A", "", "u", false⟩], [], []⟩
      ⟨3, [⟨1, "post", 7, "Deck A", "", "u", false⟩], [⟨2, 1, none, "Island", 0, "u"⟩], []⟩
      [] [("a", 2)] e1, resolveLoop_nil]
  have e2 : passNodes "u" 3 [⟨"x", some "x", "Loop", 0, []⟩]
      ⟨4, [⟨1, "post", 7, "Deck A", "", "u", false⟩, ⟨3, "post", 7, "Deck B", "", "u", false⟩],
        [⟨2, 1, none, "Island", 0, "u"⟩], []⟩ [] false =
      ⟨⟨4, [⟨1, "post", 7, "Deck A", "", "u", false⟩, ⟨3, "post", 7, "Deck B", "", "u", false⟩],
        [⟨2, 1, none, "Island", 0, "u"⟩], []⟩, [], [⟨"x", some "x", "Loop", 0, []⟩], false, none⟩ := by decide
  have hB : applyTree ⟨3, [⟨1, "post", 7, "Deck A", "", "u", false⟩], [⟨2, 1, none, "Island", 0, "u"⟩], []⟩
      "post" 7 "u" batchTreeB =
      (⟨4, [⟨1, "post", 7, "Deck A", "", "u", false⟩, ⟨3, "post", 7, "Deck B", "", "u", false⟩],
        [⟨2, 1, none, "Island", 0, "u"⟩], []⟩, some "invalid tree payload") := by
    show resolveLoop "u" 3 [⟨"x", some "x", "Loop", 0, []⟩]
      ⟨4, [⟨1, "post", 7, "Deck A", "", "u", false⟩, ⟨3, "post", 7, "Deck B", "", "u", false⟩],
        [⟨2, 1, none, "Island", 0, "u"⟩], []⟩ [] = _
    rw [resolveLoop_step_stuck "u" 3 ⟨"x", some "x", "Loop", 0, []⟩ ⟨"x", some "x", "Loop", 0, []⟩ [] []
      ⟨4, [⟨1, "post", 7, "Deck A", "", "u", false⟩, ⟨3, "post", 7, "Deck B", "", "u", false⟩],
        [⟨2, 1, none, "Island", 0, "u"⟩], []⟩
      ⟨4, [⟨1, "post", 7, "Deck A", "", "u", false⟩, ⟨3, "post", 7, "Deck B", "", "u", false⟩],
        [⟨2, 1, none, "Island", 0, "u"⟩], []⟩ [] [] e2]
  show (applyTreesLoop "post" 7 "u" [batchTreeA, batchTreeB] emptyStore).2 = _ ∧
    (applyTreesLoop "post" 7 "u" [batchTreeA, batchTreeB] emptyStore).1.trees = _ ∧
    (applyTreesLoop "post" 7 "u" [batchTreeA, batchTreeB] emptyStore).1.nodes = _
  rw [applyTreesLoop_cons_ok "post" 7 "u" batchTreeA [batchTreeB] emptyStore
      ⟨3, [⟨1, "post", 7, "Deck A", "", "u", false⟩], [⟨2, 1, none, "Island", 0, "u"⟩], []⟩ hA,
    applyTreesLoop_cons_err "post" 7 "u" batchTreeB []
      ⟨3, [⟨1, "post", 7, "Deck A", "", "u", false⟩], [⟨2, 1, none, "Island", 0, "u"⟩], []⟩
      ⟨4, [⟨1, "post", 7, "Deck A", "", "u", false⟩, ⟨3, "post", 7, "Deck B", "", "u", false⟩],
        [⟨2, 1, none, "Island", 0, "u"⟩], []⟩ "invalid tree payload" hB]
  exact ⟨rfl, rfl, rfl⟩

/-- C7 counterexample: a batch tree whose node carries an annotation
descriptor with whitespace-only body resolves SUCCESSFULLY and persists
zero annotation rows: the empty body is silently skipped, not reported
as a validation error. -/
theorem claim_C7_counterexample :
    (applyTree emptyStore "post" 1 "u" blankAnnotTree).2 = none ∧
    (applyTree emptyStore "post" 1 "u" blankAnnotTree).1.annotations = [] ∧
    blankAnnotTree.nodes = [⟨"a", none, "Card", 0, [⟨"", " ", "", ""⟩]⟩] := by
  have e1 : passNodes "u" 1 [⟨"a", none, "Card", 0, [⟨"", " ", "", ""⟩]⟩]
      ⟨2, [⟨1, "post", 1, "T", "", "u", false⟩], [], []⟩ [] false =
      ⟨⟨3, [⟨1, "post", 1, "T", "", "u", false⟩], [⟨2, 1, none, "Card", 0, "u"⟩], []⟩,
        [("a", 2)], [], true, none⟩ := by decide
  have hA : applyTree emptyStore "post" 1 "u" blankAnnotTree =
      (⟨3, [⟨1, "post", 1, "T", "", "u", false⟩], [⟨2, 1, none, "Card", 0, "u"⟩], []⟩, none) := by
    show resolveLoop "u" 1 [⟨"a", none, "Card", 0, [⟨"", " ", "", ""⟩]⟩]
      ⟨2, [⟨1, "post", 1, "T", "", "u", false⟩], [], []⟩ [] = _
    rw [resolveLoop_step_progress "u" 1 ⟨"a", none, "Card", 0, [⟨"", " ", "", ""⟩]⟩ [] []
      ⟨2, [⟨1, "post", 1, "T", "", "u", false⟩], [], []⟩
      ⟨3, [⟨1, "post", 1, "T", "", "u", false⟩], [⟨2, 1, none, "Card", 0, "u"⟩], []⟩
      [] [("a", 2)] e1, resolveLoop_nil]
  rw [hA]
  exact ⟨rfl, rfl, rfl⟩

/-- C7 (amended): during batch resolution an annotation descriptor with
a blank (after trimming) body is silently skipped, and a created one
with blank kind defaults to "note"; the REST annotation endpoint
rejects an empty body as a 400 client error with no store mutation and
defaults an empty kind to "note" on success. -/
theorem claim_C7_annot_handling :
    (∀ (nodeID : Nat) (username : String) (a : CardTreePayloadAnnot)
        (rest : List CardTreePayloadAnnot) (st : Store),
      trimSpace a.body = "" →
      createNodeAnnots nodeID username (a :: rest) st = createNodeAnnots nodeID username rest st) ∧
    (∀ (nodeID : Nat) (username : String) (a : CardTreePayloadAnnot)
        (rest : List CardTreePayloadAnnot) (st : Store),
      ¬ trimSpace a.body = "" → trimSpace a.kind = "" →
      createNodeAnnots nodeID username (a :: rest) st =
        createNodeAnnots nodeID username rest
          { st with
            nextID := st.nextID + 1,
            annotations := st.annotations ++ [⟨st.nextID, nodeID, "note", trimSpace a.body,
              trimSpace a.label, trimSpace a.tags, none, username⟩] }) ∧
    (∀ (st : Store) (treeID nodeID : Nat) (username : String) (req : AnnotCreateRequest),
      getCardTreeNodeTreeID st nodeID = some treeID → req.body = "" →
      treeNodeAnnotationsHandlerPost st treeID nodeID username req =
        (HResp.badRequest "Body is required", st)) ∧
    (∀ (st : Store) (treeID nodeID : Nat) (username : String) (req : AnnotCreateRequest),
      getCardTreeNodeTreeID st nodeID = some treeID → ¬ req.body = "" → req.kind = "" →
      treeNodeAnnotationsHandlerPost st treeID nodeID username req =
        (HResp.okAnnot ⟨st.nextID, nodeID, "note", req.body, req.label, req.tags, req.sourcePostID, username⟩,
          { st with
            nextID := st.nextID + 1,
            annotations := st.annotations ++ [⟨st.nextID, nodeID, "note", req.body, req.label,
              req.tags, req.sourcePostID, username⟩] })) := by
  refine ⟨?_, ?_, ?_, ?_⟩
  · intro nodeID username a rest st h
    simp [createNodeAnnots, h]
  · intro nodeID username a rest st hbody hkind
    simp [createNodeAnnots, createCardTreeAnnot, hbody, hkind]
  · intro st treeID nodeID username req hlook hbody
    simp [treeNodeAnnotationsHandlerPost, hlook, hbody]
  · intro st treeID nodeID username req hlook hbody hkind
    simp [treeNodeAnnotationsHandlerPost, createCardTreeAnnot, hlook, hbody, hkind]

/-- C7 witness: a skipped blank-bodied descriptor, a created descriptor
defaulting to kind "note", a rejected empty REST body and a successful
REST creation defaulting to kind "note", all on the fixture store. -/
theorem claim_C7_witness :
    (trimSpace " " = "" ∧ ¬ trimSpace "good" = "" ∧ trimSpace "" = "" ∧
      getCardTreeNodeTreeID fixtureStore 3 = some 1) ∧
    createNodeAnnots 3 "u" [⟨"", " ", "", ""⟩] fixtureStore = createNodeAnnots 3 "u" [] fixtureStore ∧
    createNodeAnnots 3 "u" [⟨"", "good", "", ""⟩] fixtureStore =
      createNodeAnnots 3 "u" []
        { fixtureStore with
          nextID := fixtureStore.nextID + 1,
          annotations := fixtureStore.annotations ++ [⟨fixtureStore.nextID, 3, "note",
            trimSpace "good", trimSpace "", trimSpace "", none, "u"⟩] } ∧
    treeNodeAnnotationsHandlerPost fixtureStore 1 3 "u" (AnnotCreateRequest.mk "" "" "" "" none) =
      (HResp.badRequest "Body is required", fixtureStore) ∧
    treeNodeAnnotationsHandlerPost fixtureStore 1 3 "u" (AnnotCreateRequest.mk "" "B" "" "" none) =
      (HResp.okAnnot ⟨fixtureStore.nextID, 3, "note", "B", "", "", none, "u"⟩,
        { fixtureStore with
          nextID := fixtureStore.nextID + 1,
          annotations := fixtureStore.annotations ++ [⟨fixtureStore.nextID, 3, "note", "B", "", "",
            none, "u"⟩] }) :=
  ⟨⟨by decide, by decide, by decide, by decide⟩,
    claim_C7_annot_handling.1 3 "u" ⟨"", " ", "", ""⟩ [] fixtureStore (by decide),
    claim_C7_annot_handling.2.1 3 "u" ⟨"", "good", "", ""⟩ [] fixtureStore (by decide) (by decide),
    claim_C7_annot_handling.2.2.1 fixtureStore 1 3 "u" (AnnotCreateRequest.mk "" "" "" "" none)
      (by decide) rfl,
    claim_C7_annot_handling.2.2.2 fixtureStore 1 3 "u" (AnnotCreateRequest.mk "" "B" "" "" none)
      (by decide) (by decide) rfl⟩
